import Mathlib

/-!
Shallow embedding of the Game of Life implementation in `src/main.js` and
verification of its specification.

Modelling notes:
* A grid is a list of rows of booleans (`true` = alive), as in the source.
* JavaScript `%` on integers is the truncating remainder, i.e. `Int.tmod`.
* The source's `countAlive` closes over the module-global variable `universe`
  (it does not take the grid as an argument), so every function that calls it
  takes that global grid as an explicit first argument `glob`.
* JavaScript array indexing: `universe[m]` with `m` outside `[0, length)`
  yields `undefined`, so `universe[m][n]` throws a `TypeError`; when the row
  exists but `n` is out of range, `universe[m][n]` is `undefined`, which is
  falsy.  Throws are modelled with `Option`: `none` is an uncaught exception.
-/

namespace GameOfLife

/-- Grid of boolean cells, `true` = alive, `false` = dead (source rows are
arrays of booleans produced by `createUniverse`). -/
abbrev Grid := List (List Bool)

/-- Source constant `GRID_SIZE = 100` (number of cells per side), the fixed
modulus used by `wrapIndex`. -/
def GRID_SIZE : Int := 100

/-- Source `getNeighbors([m, n])`: maps `ops = [-1, 0, 1]` over itself to build
the 3 x 3 offset neighborhood of the cell, flattens it, and filters out the
element at index 4 (the cell itself). -/
def getNeighbors (cell : Int × Int) : List (Int × Int) :=
  let ops : List Int := [-1, 0, 1]
  (((ops.map fun x => ops.map fun y => (cell.1 + x, cell.2 + y)).flatten).enum.filter
      fun v => v.1 != 4).map Prod.snd

/-- Source `wrapIndex(i)`: first `i %= GRID_SIZE` with the JavaScript truncating
remainder (`Int.tmod`), then `if (i < 0) i += GRID_SIZE`. -/
def wrapIndex (i : Int) : Int :=
  if i.tmod GRID_SIZE < 0 then i.tmod GRID_SIZE + GRID_SIZE else i.tmod GRID_SIZE

/-- Source `wrapCell([m, n]) = [wrapIndex(m), wrapIndex(n)]`. -/
def wrapCell (cell : Int × Int) : Int × Int := (wrapIndex cell.1, wrapIndex cell.2)

/-- Source `nextCellState(alive, liveNeighbors)`: early `return false` on
under/over-population (alive) or on a neighbor count other than 3 (dead),
otherwise `return true`. -/
def nextCellState (alive : Bool) (liveNeighbors : Nat) : Bool :=
  if alive then
    if liveNeighbors < 2 ∨ liveNeighbors > 3 then false else true
  else
    if ¬(liveNeighbors = 3) then false else true

/-- Model of the JavaScript expression `universe[m][n]` inside `countAlive`,
where `universe` is the module-global grid `glob`: a negative or too-large row
index yields `undefined`, so indexing into it throws (`none`); a column index
outside the row yields `undefined`, which is falsy (counted as dead). -/
def readCell (glob : Grid) (m n : Int) : Option Bool :=
  if m < 0 then none
  else
    match glob[m.toNat]? with
    | none => none
    | some row => some (if n < 0 then false else (row[n.toNat]?).getD false)

/-- Source `countAlive(cells)`: the fold
`cells.reduce((acc, [m, n]) => universe[m][n] ? acc + 1 : acc, 0)`.
It reads the module-global `universe` (here the explicit argument `glob`),
not any grid of the caller; a throwing row access aborts the call (`none`). -/
def countAlive (glob : Grid) (cells : List (Int × Int)) : Option Nat :=
  cells.foldl
    (fun acc c => acc.bind fun a => (readCell glob c.1 c.2).map fun b => if b then a + 1 else a)
    (some 0)

/-- Index-passing `map` with a fallible body, modelling the JavaScript
`Array.prototype.map` callbacks `(row, m)` and `(cell, n)` used by `step`:
an exception thrown in any callback aborts the whole `map`. -/
def mapIdxOpt (f : Nat → α → Option β) : Nat → List α → Option (List β)
  | _, [] => some []
  | i, a :: as => (f i a).bind fun b => (mapIdxOpt f (i + 1) as).map fun bs => b :: bs

/-- Source `step(universe)`: maps over the rows and cells of its argument
(`univ`, which shadows the global), computes each cell's wrapped neighbor list,
counts the live ones — via `countAlive`, which reads the module-global grid
`glob`, not `univ` — and applies `nextCellState` to the cell's own state from
`univ` and that count. -/
def step (glob univ : Grid) : Option Grid :=
  mapIdxOpt
    (fun m row =>
      mapIdxOpt
        (fun n cell =>
          (countAlive glob ((getNeighbors ((m : Int), (n : Int))).map wrapCell)).map
            fun alive => nextCellState cell alive)
        0 row)
    0 univ

/-- Program iteration `universe = step(universe)` performed by `animate`'s tick:
when the source calls `step`, the module-global grid read by `countAlive` is
exactly the grid being stepped, and the result is reassigned to the global. -/
def run (univ : Grid) : Nat → Option Grid
  | 0 => some univ
  | k + 1 => (step univ univ).bind fun u => run u k

/-- Source `createUniverse(rows, cols)`: two nested loops pushing one
`randomBool()` per cell; the random source is passed explicitly as `rand`. -/
def createUniverse (rand : Nat → Nat → Bool) (rows cols : Nat) : Grid :=
  (List.range rows).map fun i => (List.range cols).map fun j => rand i j

/-- Fully dead 100 x 100 grid. -/
def deadGrid : Grid := List.replicate 100 (List.replicate 100 false)

/-- 100 x 100 grid whose only live cells are (0,1), (1,0) and (1,1). -/
def cornerGrid : Grid :=
  (false :: true :: List.replicate 98 false) ::
    (true :: true :: List.replicate 98 false) ::
    List.replicate 98 (List.replicate 100 false)

/-- 100 x 100 grid built from a cell predicate. -/
def mkGrid (f : Nat → Nat → Bool) : Grid :=
  (List.range 100).map fun m => (List.range 100).map fun n => f m n

/-- Cell predicate of the 2 x 2 still-life block whose top-left corner is
(i, j): alive exactly on rows i, i+1 and columns j, j+1. -/
def blockCell (i j m n : Nat) : Bool :=
  decide (m = i ∨ m = i + 1) && decide (n = j ∨ n = j + 1)

/-- 100 x 100 grid containing exactly a 2 x 2 block of live cells with
top-left corner (i, j), every other cell dead. -/
def blockGrid (i j : Nat) : Grid := mkGrid (blockCell i j)

/-- Indicator of membership of an integer offset in {0, 1}: the rows (resp.
columns) of the 2 x 2 block at distance `p` from the block's corner. -/
def hit (p : Int) : Nat := if p = 0 ∨ p = 1 then 1 else 0

/-- Number of live neighbors of a cell of `blockGrid i j` whose row distance
from i is `p` and whose column distance from j is `q` (wrap ignored, valid
when the block is away from the edges). -/
def liveCnt (p q : Int) : Nat :=
  hit (p + -1) * hit (q + -1) + hit (p + -1) * hit q + hit (p + -1) * hit (q + 1) +
    hit p * hit (q + -1) + hit p * hit (q + 1) +
    hit (p + 1) * hit (q + -1) + hit (p + 1) * hit q + hit (p + 1) * hit (q + 1)

/-! ### Arithmetic facts about `wrapIndex` -/

/-- JavaScript's corrected truncating remainder agrees with the mathematical
(Euclidean) modulo for the positive modulus `100`. -/
theorem wrapIndex_eq_emod (i : Int) : wrapIndex i = i % 100 := by
  unfold wrapIndex GRID_SIZE
  cases i with
  | ofNat m =>
      rw [show Int.tmod (Int.ofNat m) 100 = ((m % 100 : Nat) : Int) from rfl,
        Int.ofNat_eq_coe]
      split <;> omega
  | negSucc m =>
      rw [show Int.tmod (Int.negSucc m) 100 = -((((m + 1) % 100 : Nat)) : Int) from rfl,
        Int.negSucc_eq]
      split <;> omega

/-- Wrapped indices always land in `[0, 100)`. -/
theorem wrapIndex_bounds (i : Int) : 0 ≤ wrapIndex i ∧ wrapIndex i < 100 := by
  rw [wrapIndex_eq_emod]; omega

/-- Unfolded form of the neighbor list of a cell. -/
theorem getNeighbors_eq (m n : Int) :
    getNeighbors (m, n) =
      [(m + -1, n + -1), (m + -1, n + 0), (m + -1, n + 1), (m + 0, n + -1),
       (m + 0, n + 1), (m + 1, n + -1), (m + 1, n + 0), (m + 1, n + 1)] := rfl

/-- C4: `wrapIndex` maps every integer onto `[0, 100)` by true mathematical
modulo (truncating remainder corrected for negative results): it agrees with
the Euclidean `i % 100` everywhere, its value lies in `[0, 100)`, and
`wrapIndex (-1) = 99`, `wrapIndex 100 = 0`, `wrapIndex 0 = 0`,
`wrapIndex 99 = 99`. -/
theorem wrapIndex_true_modulo :
    (∀ i : Int, wrapIndex i = i % 100 ∧ 0 ≤ wrapIndex i ∧ wrapIndex i < 100) ∧
    wrapIndex (-1) = 99 ∧ wrapIndex 100 = 0 ∧ wrapIndex 0 = 0 ∧ wrapIndex 99 = 99 := by
  refine ⟨fun i => ⟨wrapIndex_eq_emod i, (wrapIndex_bounds i).1, (wrapIndex_bounds i).2⟩,
    ?_, ?_, ?_, ?_⟩ <;> decide

/-- C5: `getNeighbors` returns exactly the eight offsets
`(-1,-1),(-1,0),(-1,1),(0,-1),(0,1),(1,-1),(1,0),(1,1)` applied to the cell
(the `(0,0)` self-offset is excluded), and these eight pairs are pairwise
distinct, none equal to the cell itself. -/
theorem getNeighbors_eight_distinct (m n : Int) :
    getNeighbors (m, n) =
      [(m + -1, n + -1), (m + -1, n + 0), (m + -1, n + 1), (m + 0, n + -1),
       (m + 0, n + 1), (m + 1, n + -1), (m + 1, n + 0), (m + 1, n + 1)] ∧
    (getNeighbors (m, n)).length = 8 ∧
    (getNeighbors (m, n)).Nodup ∧
    (m, n) ∉ getNeighbors (m, n) := by
  refine ⟨getNeighbors_eq m n, rfl, ?_, ?_⟩
  · rw [getNeighbors_eq]
    simp [Prod.ext_iff]
  · rw [getNeighbors_eq]
    simp [Prod.ext_iff]

/-- C6: `nextCellState` implements the B3/S23 rule: a live cell survives
exactly when it has 2 or 3 live neighbors, and a dead cell is born exactly
when it has 3 live neighbors. -/
theorem nextCellState_b3s23 (n : Nat) :
    (nextCellState true n = true ↔ (n = 2 ∨ n = 3)) ∧
    (nextCellState false n = true ↔ n = 3) := by
  unfold nextCellState
  constructor
  · split
    · simp_all
      omega
    · simp_all
  · split <;> simp_all

/-! ### Option plumbing -/

theorem some_bind_eq (a : α) (f : α → Option β) : (some a).bind f = f a := rfl

theorem some_map_eq (a : α) (f : α → β) : (some a).map f = some (f a) := rfl

/-! ### Reads through the module-global grid -/

/-- A read at a row index inside `[0, glob.length)` never throws. -/
theorem readCell_isSome (glob : Grid) (h : glob.length = 100) (a b : Int)
    (ha1 : 0 ≤ a) (ha2 : a < 100) : (readCell glob a b).isSome := by
  unfold readCell
  rw [if_neg (by omega)]
  cases hx : glob[a.toNat]? with
  | none =>
      rw [List.getElem?_eq_none_iff] at hx
      omega
  | some row => rfl

/-- On a full 100 x 100 global grid, the JavaScript read `universe[m][n]` at
wrapped coordinates is the genuine in-bounds lookup: no throw, and no falsy
`undefined` column fallback. -/
theorem readCell_wrapped_inbounds (glob : Grid) (h : glob.length = 100)
    (hrows : ∀ row ∈ glob, row.length = 100) (x y : Int) :
    (glob[(wrapIndex x).toNat]?.bind fun row => row[(wrapIndex y).toNat]?).isSome ∧
    readCell glob (wrapIndex x) (wrapIndex y) =
      glob[(wrapIndex x).toNat]?.bind fun row => row[(wrapIndex y).toNat]? := by
  have hx := wrapIndex_bounds x
  have hy := wrapIndex_bounds y
  cases hrow : glob[(wrapIndex x).toNat]? with
  | none =>
      rw [List.getElem?_eq_none_iff] at hrow
      omega
  | some row =>
      have hlen : row.length = 100 := hrows row (List.getElem?_mem hrow)
      cases hv : row[(wrapIndex y).toNat]? with
      | none =>
          rw [List.getElem?_eq_none_iff] at hv
          omega
      | some v =>
          constructor
          · rw [some_bind_eq, hv]; rfl
          · unfold readCell
            rw [if_neg (by omega)]
            simp only [hrow, some_bind_eq, hv, if_neg (show ¬ wrapIndex y < 0 by omega)]
            rfl

/-- Auxiliary foldl form of `countAlive` with an arbitrary accumulator. -/
theorem countAlive_foldl_isSome (glob : Grid) (cells : List (Int × Int))
    (hc : ∀ c ∈ cells, (readCell glob c.1 c.2).isSome) :
    ∀ a : Nat,
      (cells.foldl
        (fun acc c => acc.bind fun a => (readCell glob c.1 c.2).map fun b => if b then a + 1 else a)
        (some a)).isSome := by
  induction cells with
  | nil => intro a; rfl
  | cons c cs ih =>
      intro a
      rw [List.foldl_cons, some_bind_eq]
      obtain ⟨b, hb⟩ := Option.isSome_iff_exists.mp (hc c (by simp))
      rw [hb, some_map_eq]
      exact ih (fun d hd => hc d (by simp [hd])) _

/-- `countAlive` cannot fail when every cell read is defined. -/
theorem countAlive_isSome (glob : Grid) (cells : List (Int × Int))
    (hc : ∀ c ∈ cells, (readCell glob c.1 c.2).isSome) :
    (countAlive glob cells).isSome :=
  countAlive_foldl_isSome glob cells hc 0

/-- A fold over a throwing accumulator stays thrown. -/
theorem countAlive_foldl_none (glob : Grid) (cells : List (Int × Int)) :
    cells.foldl
      (fun acc c => acc.bind fun a => (readCell glob c.1 c.2).map fun b => if b then a + 1 else a)
      none = none := by
  induction cells with
  | nil => rfl
  | cons c cs ih => rw [List.foldl_cons]; exact ih

/-- Auxiliary bound: the fold can add at most one per visited cell. -/
theorem countAlive_foldl_le (glob : Grid) (cells : List (Int × Int)) :
    ∀ (a k : Nat),
      cells.foldl
        (fun acc c => acc.bind fun a => (readCell glob c.1 c.2).map fun b => if b then a + 1 else a)
        (some a) = some k → k ≤ a + cells.length := by
  induction cells with
  | nil => intro a k h; cases h; simp
  | cons c cs ih =>
      intro a k h
      rw [List.foldl_cons, some_bind_eq] at h
      cases hr : readCell glob c.1 c.2 with
      | none =>
          rw [hr] at h
          rw [show (none : Option Bool).map _ = none from rfl, countAlive_foldl_none] at h
          cases h
      | some b =>
          rw [hr, some_map_eq] at h
          have hb : (if b then a + 1 else a) ≤ a + 1 := by cases b <;> simp
          have := ih _ _ h
          simp only [List.length_cons]
          omega

/-- `countAlive` on whole-list success never counts more than the list length. -/
theorem countAlive_le (glob : Grid) (cells : List (Int × Int)) (k : Nat)
    (h : countAlive glob cells = some k) : k ≤ cells.length := by
  have := countAlive_foldl_le glob cells 0 k h
  omega

/-- All cells of a `wrapCell`-mapped list read successfully on a 100-row global. -/
theorem countAlive_wrapped_isSome (glob : Grid) (h : glob.length = 100)
    (l : List (Int × Int)) : (countAlive glob (l.map wrapCell)).isSome := by
  apply countAlive_isSome
  intro c hc
  obtain ⟨d, _, rfl⟩ := List.mem_map.mp hc
  exact readCell_isSome glob h _ _ (wrapIndex_bounds d.1).1 (wrapIndex_bounds d.1).2

/-! ### Generic facts about the index-passing fallible map -/

theorem mapIdxOpt_isSome (f : Nat → α → Option β) (l : List α)
    (hf : ∀ j a, a ∈ l → (f j a).isSome) : ∀ i : Nat, (mapIdxOpt f i l).isSome := by
  induction l with
  | nil => intro i; rfl
  | cons a as ih =>
      intro i
      show ((f i a).bind _).isSome
      obtain ⟨b, hb⟩ := Option.isSome_iff_exists.mp (hf i a (by simp))
      rw [hb, some_bind_eq]
      obtain ⟨bs, hbs⟩ := Option.isSome_iff_exists.mp
        (ih (fun j c hc => hf j c (by simp [hc])) (i + 1))
      rw [hbs, some_map_eq]
      rfl

theorem mapIdxOpt_forall2 (f : Nat → α → Option β) (P : α → β → Prop)
    (hf : ∀ i a b, f i a = some b → P a b) :
    ∀ (l : List α) (i : Nat) (l2 : List β),
      mapIdxOpt f i l = some l2 → List.Forall₂ P l l2 := by
  intro l
  induction l with
  | nil =>
      intro i l2 h
      cases h
      exact List.Forall₂.nil
  | cons a as ih =>
      intro i l2 h
      unfold mapIdxOpt at h
      cases hfa : f i a with
      | none => rw [hfa] at h; cases h
      | some b =>
          rw [hfa, some_bind_eq] at h
          cases hrec : mapIdxOpt f (i + 1) as with
          | none => rw [hrec] at h; cases h
          | some bs =>
              rw [hrec, some_map_eq] at h
              cases h
              exact List.Forall₂.cons (hf i a b hfa) (ih _ _ hrec)

/-- A fixed point test for the fallible map: if the body returns every element
unchanged, the whole map returns the list unchanged. -/
theorem mapIdxOpt_fix (f : Nat → α → Option α) :
    ∀ (l : List α) (i : Nat), (∀ j a, a ∈ l → f j a = some a) →
      mapIdxOpt f i l = some l := by
  intro l
  induction l with
  | nil => intro i _; rfl
  | cons a as ih =>
      intro i h
      show (f i a).bind _ = _
      rw [h i a (by simp), some_bind_eq, ih (i + 1) (fun j c hc => h j c (by simp [hc])),
        some_map_eq]

/-- Position-aware fixed point test over a list of the form
`(List.range' i k).map g`. -/
theorem mapIdxOpt_fix_range (f : Nat → α → Option α) (g : Nat → α) :
    ∀ (k i : Nat), (∀ j, i ≤ j → j < i + k → f j (g j) = some (g j)) →
      mapIdxOpt f i ((List.range' i k).map g) = some ((List.range' i k).map g) := by
  intro k
  induction k with
  | zero => intro i _; rfl
  | succ k ih =>
      intro i h
      rw [List.range'_succ, List.map_cons]
      show (f i (g i)).bind _ = _
      rw [h i (Nat.le_refl i) (by omega), some_bind_eq,
        ih (i + 1) (fun j h1 h2 => h j (by omega) (by omega)), some_map_eq]

/-! ### Totality and dimensions of `step` -/

/-- On the program's 100-row module-global grid, `step` never throws. -/
theorem step_isSome (glob univ : Grid) (h : glob.length = 100) :
    (step glob univ).isSome := by
  unfold step
  apply mapIdxOpt_isSome
  intro m row _
  apply mapIdxOpt_isSome
  intro n cell _
  rw [Option.isSome_map']
  exact countAlive_wrapped_isSome glob h _

/-- Length preservation for the fallible map. -/
theorem mapIdxOpt_length (f : Nat → α → Option β) (l : List α) (i : Nat) (l2 : List β)
    (h : mapIdxOpt f i l = some l2) : l2.length = l.length :=
  (List.Forall₂.length_eq
    (mapIdxOpt_forall2 f (fun _ _ => True) (fun _ _ _ _ => trivial) l i l2 h)).symm

/-! ### The all-dead grid -/

/-- Every read of the all-dead global grid at an in-range row yields a dead
cell (out-of-range columns read the falsy `undefined`, also dead). -/
theorem readCell_deadGrid (a b : Int) (ha1 : 0 ≤ a) (ha2 : a < 100) :
    readCell deadGrid a b = some false := by
  unfold readCell deadGrid
  rw [if_neg (by omega), List.getElem?_replicate, if_pos (show a.toNat < 100 by omega)]
  show some (if b < 0 then false else ((List.replicate 100 false)[b.toNat]?).getD false) =
    some false
  congr 1
  split
  · rfl
  · rw [List.getElem?_replicate]
    split <;> rfl

/-- Fold form of `countAlive` over cells that all read dead. -/
theorem countAlive_foldl_dead (glob : Grid) (cells : List (Int × Int))
    (h : ∀ c ∈ cells, readCell glob c.1 c.2 = some false) :
    ∀ a : Nat,
      cells.foldl
        (fun acc c => acc.bind fun a => (readCell glob c.1 c.2).map fun b => if b then a + 1 else a)
        (some a) = some a := by
  induction cells with
  | nil => intro a; rfl
  | cons c cs ih =>
      intro a
      rw [List.foldl_cons, some_bind_eq, h c (by simp), some_map_eq]
      exact ih (fun d hd => h d (by simp [hd])) a

/-- `countAlive` over cells that all read dead counts zero. -/
theorem countAlive_dead (glob : Grid) (cells : List (Int × Int))
    (h : ∀ c ∈ cells, readCell glob c.1 c.2 = some false) :
    countAlive glob cells = some 0 :=
  countAlive_foldl_dead glob cells h 0

/-- Stepping the all-dead 100 x 100 grid (as both the global and the argument,
as in the program) returns the all-dead grid. -/
theorem step_deadGrid : step deadGrid deadGrid = some deadGrid := by
  unfold step
  apply mapIdxOpt_fix
  intro m row hrow
  have hr : row = List.replicate 100 false := List.eq_of_mem_replicate hrow
  subst hr
  apply mapIdxOpt_fix
  intro n cell hcell
  have hc : cell = false := List.eq_of_mem_replicate hcell
  subst hc
  have hreads : ∀ c ∈ (getNeighbors ((m : Int), (n : Int))).map wrapCell,
      readCell deadGrid c.1 c.2 = some false := by
    intro c hc2
    obtain ⟨d, _, rfl⟩ := List.mem_map.mp hc2
    exact readCell_deadGrid _ _ (wrapIndex_bounds d.1).1 (wrapIndex_bounds d.1).2
  rw [countAlive_dead deadGrid _ hreads, some_map_eq]
  rfl

/-- Iterating the program loop from the all-dead 100 x 100 grid stays all
dead forever. -/
theorem run_deadGrid (k : Nat) : run deadGrid k = some deadGrid := by
  induction k with
  | zero => rfl
  | succ k ih =>
      show (step deadGrid deadGrid).bind _ = _
      rw [step_deadGrid, some_bind_eq]
      exact ih

/-! ### Claim theorems (with their witnesses) -/

/-- C2: every core operation is total: seeding builds a full `rows x cols`
grid of defined booleans, wrapping always lands in `[0, GRID_SIZE)`, neighbor
generation always yields 8 pairs, and — with the program's module-global grid,
a full 100 x 100 grid — every cell read of `step` is a genuine in-bounds
lookup and `step` cannot fail on any grid argument. -/
theorem core_operations_total :
    (∀ (rand : Nat → Nat → Bool) (rows cols : Nat),
        (createUniverse rand rows cols).length = rows ∧
        ∀ row ∈ createUniverse rand rows cols, row.length = cols) ∧
    (∀ i : Int, 0 ≤ wrapIndex i ∧ wrapIndex i < GRID_SIZE) ∧
    (∀ cell : Int × Int, (getNeighbors cell).length = 8) ∧
    (∀ glob : Grid, glob.length = 100 → (∀ row ∈ glob, row.length = 100) →
      ∀ x y : Int,
        (glob[(wrapIndex x).toNat]?.bind fun row => row[(wrapIndex y).toNat]?).isSome ∧
        readCell glob (wrapIndex x) (wrapIndex y) =
          glob[(wrapIndex x).toNat]?.bind fun row => row[(wrapIndex y).toNat]?) ∧
    (∀ glob univ : Grid, glob.length = 100 → (step glob univ).isSome) := by
  refine ⟨?_, ?_, ?_, fun glob h hr x y => readCell_wrapped_inbounds glob h hr x y,
    fun glob univ h => step_isSome glob univ h⟩
  · intro rand rows cols
    refine ⟨by simp [createUniverse], ?_⟩
    intro row hrow
    simp only [createUniverse, List.mem_map, List.mem_range] at hrow
    obtain ⟨i, _, rfl⟩ := hrow
    simp
  · intro i
    exact wrapIndex_bounds i
  · intro cell
    obtain ⟨m, n⟩ := cell
    rfl

theorem core_operations_total_witness :
    (step deadGrid [[true]]).isSome ∧
    readCell deadGrid (wrapIndex (-1)) (wrapIndex 100) =
      deadGrid[(wrapIndex (-1)).toNat]?.bind fun row => row[(wrapIndex 100).toNat]? :=
  ⟨core_operations_total.2.2.2.2 deadGrid [[true]] (by simp [deadGrid]),
    (core_operations_total.2.2.2.1 deadGrid (by simp [deadGrid])
      (fun row hrow => by
        unfold deadGrid at hrow
        rw [List.eq_of_mem_replicate hrow]
        simp) (-1) 100).2⟩

/-- C3 (refuting evaluation): in the program the module-global grid read by
`countAlive` is the grid being stepped, so stepping the all-dead 1 x 1 grid
reads row 99 of a 1-row global and throws; no all-dead result is produced.
The all-dead grid of size N = 1 is not a fixed point of the code. -/
theorem allDead_small_grid_crashes :
    run [[false]] 1 = none ∧ run [[false]] 1 ≠ some [[false]] := by
  constructor <;> decide

/-- C3 amended: for the program's own grid size N = 100, the all-dead grid is
a fixed point of the program's step loop: `deadGrid` is 100 x 100, every cell
dead, and any number of iterations returns it unchanged. -/
theorem allDead_hundred_fixed_point :
    (∀ row ∈ deadGrid, ∀ c ∈ row, c = false) ∧
    deadGrid.length = 100 ∧ (∀ row ∈ deadGrid, row.length = 100) ∧
    (∀ k : Nat, run deadGrid k = some deadGrid) := by
  refine ⟨?_, by simp [deadGrid], ?_, run_deadGrid⟩
  · intro row hrow c hc
    unfold deadGrid at hrow
    rw [List.eq_of_mem_replicate hrow] at hc
    exact List.eq_of_mem_replicate hc
  · intro row hrow
    unfold deadGrid at hrow
    rw [List.eq_of_mem_replicate hrow]
    simp

theorem allDead_hundred_fixed_point_witness :
    (false = false) ∧ (List.replicate 100 false : List Bool).length = 100 ∧
      run deadGrid 4 = some deadGrid :=
  ⟨allDead_hundred_fixed_point.1 (List.replicate 100 false) (by simp [deadGrid]) false
      (by simp),
    allDead_hundred_fixed_point.2.2.1 (List.replicate 100 false) (by simp [deadGrid]),
    allDead_hundred_fixed_point.2.2.2 4⟩

/-- C8: on the program's 100-row module-global grid, `step` succeeds and
returns a grid with exactly as many rows as its argument, each row exactly as
long as the corresponding argument row. -/
theorem step_preserves_dimensions (glob univ : Grid) (h : glob.length = 100) :
    ∃ univ2, step glob univ = some univ2 ∧ univ2.length = univ.length ∧
      List.Forall₂ (fun row row2 => List.length row2 = List.length row) univ univ2 := by
  obtain ⟨univ2, h2⟩ := Option.isSome_iff_exists.mp (step_isSome glob univ h)
  unfold step at h2
  refine ⟨univ2, h2, mapIdxOpt_length _ _ _ _ h2, ?_⟩
  exact mapIdxOpt_forall2 _ (fun row row2 => List.length row2 = List.length row)
    (fun m row row2 hrow => mapIdxOpt_length _ _ _ _ hrow) univ 0 univ2 h2

theorem step_preserves_dimensions_witness :
    ∃ univ2, step deadGrid [[true, false]] = some univ2 ∧
      univ2.length = ([[true, false]] : Grid).length ∧
      List.Forall₂ (fun row row2 => List.length row2 = List.length row)
        ([[true, false]] : Grid) univ2 :=
  step_preserves_dimensions deadGrid [[true, false]] (by simp [deadGrid])

/-- C10: `countAlive`, when it succeeds, returns a count between 0 and the
length of its cell list; in particular every live-neighbor count computed
inside `step` (over the 8 wrapped neighbors) lies in [0, 8]. -/
theorem countAlive_bounded :
    (∀ (glob : Grid) (cells : List (Int × Int)) (k : Nat),
        countAlive glob cells = some k → k ≤ cells.length) ∧
    (∀ (glob : Grid) (m n k : Nat),
        countAlive glob ((getNeighbors ((m : Int), (n : Int))).map wrapCell) = some k →
          k ≤ 8) := by
  refine ⟨fun glob cells k h => countAlive_le glob cells k h, ?_⟩
  intro glob m n k h
  have h8 := countAlive_le _ _ _ h
  simpa [getNeighbors_eq] using h8

theorem countAlive_bounded_witness :
    (1 : Nat) ≤ ([((0 : Int), (0 : Int))] : List (Int × Int)).length ∧ (0 : Nat) ≤ 8 :=
  ⟨countAlive_bounded.1 [[true]] [((0 : Int), (0 : Int))] 1 (by decide),
    countAlive_bounded.2 (List.replicate 100 ([] : List Bool)) 0 0 0 (by decide)⟩

/-- C1 (refuting evaluation): with the 2 x 2-block-free argument `[[false]]`
held fixed, two different values of the module-global grid make `step` return
element-wise different results, because `countAlive` reads the global, not the
argument.  `deadGrid` is all dead; `cornerGrid` is dead except at
(0,1), (1,0) and (1,1). -/
theorem step_reads_module_global :
    step deadGrid [[false]] = some [[false]] ∧
    step cornerGrid [[false]] = some [[true]] := by
  constructor <;> rfl

/-! ### The 2 x 2 still-life block -/

/-- In-bounds reads of a `mkGrid` grid return the generating predicate. -/
theorem readCell_mkGrid (f : Nat → Nat → Bool) (a b : Int) (ha1 : 0 ≤ a) (ha2 : a < 100)
    (hb1 : 0 ≤ b) (hb2 : b < 100) :
    readCell (mkGrid f) a b = some (f a.toNat b.toNat) := by
  unfold readCell mkGrid
  rw [if_neg (by omega), List.getElem?_map,
    List.getElem?_range (show a.toNat < 100 by omega), some_map_eq]
  show some (if b < 0 then false
      else (((List.range 100).map fun n => f a.toNat n)[b.toNat]?).getD false) =
    some (f a.toNat b.toNat)
  rw [if_neg (by omega), List.getElem?_map,
    List.getElem?_range (show b.toNat < 100 by omega), some_map_eq]
  rfl

/-- Reading `blockGrid i j` at a wrapped neighbor coordinate of an in-bounds
cell (m, n) sees the block exactly when the unwrapped coordinate does, the
block being at least one cell away from every edge. -/
theorem blockCell_wrapped (i j : Nat) (hi1 : 1 ≤ i) (hi2 : i + 2 ≤ 99)
    (hj1 : 1 ≤ j) (hj2 : j + 2 ≤ 99) (m n : Nat) (hm : m < 100) (hn : n < 100)
    (dx dy : Int) (hdx1 : -1 ≤ dx) (hdx2 : dx ≤ 1) (hdy1 : -1 ≤ dy) (hdy2 : dy ≤ 1) :
    readCell (blockGrid i j) (wrapIndex ((m : Int) + dx)) (wrapIndex ((n : Int) + dy)) =
      some (decide ((m : Int) - i + dx = 0 ∨ (m : Int) - i + dx = 1) &&
        decide ((n : Int) - j + dy = 0 ∨ (n : Int) - j + dy = 1)) := by
  unfold blockGrid
  rw [readCell_mkGrid _ _ _ (wrapIndex_bounds _).1 (wrapIndex_bounds _).2
    (wrapIndex_bounds _).1 (wrapIndex_bounds _).2]
  have hwx := wrapIndex_eq_emod ((m : Int) + dx)
  have hbx := wrapIndex_bounds ((m : Int) + dx)
  have hwy := wrapIndex_eq_emod ((n : Int) + dy)
  have hby := wrapIndex_bounds ((n : Int) + dy)
  congr 1
  unfold blockCell
  congr 1 <;> rw [decide_eq_decide] <;> constructor <;> intro h <;> omega

/-- Counting one cell adds its indicator. -/
theorem if_add_one (b : Bool) (x : Nat) :
    (if b then x + 1 else x) = x + cond b 1 0 := by
  cases b <;> simp

/-- A conjunctive indicator is the product of the two indicators. -/
theorem hit_and (p q : Int) :
    cond (decide (p = 0 ∨ p = 1) && decide (q = 0 ∨ q = 1)) (1 : Nat) 0 =
      hit p * hit q := by
  unfold hit
  by_cases h1 : p = 0 ∨ p = 1 <;> by_cases h2 : q = 0 ∨ q = 1 <;> simp [h1, h2]

/-- The live-neighbor count of cell (m, n) in `blockGrid i j` is `liveCnt`
of the distances to the block corner. -/
theorem countAlive_blockGrid (i j m n : Nat) (hi1 : 1 ≤ i) (hi2 : i + 2 ≤ 99)
    (hj1 : 1 ≤ j) (hj2 : j + 2 ≤ 99) (hm : m < 100) (hn : n < 100) :
    countAlive (blockGrid i j) ((getNeighbors ((m : Int), (n : Int))).map wrapCell) =
      some (liveCnt ((m : Int) - i) ((n : Int) - j)) := by
  have hread := fun (dx dy : Int) h1 h2 h3 h4 =>
    blockCell_wrapped i j hi1 hi2 hj1 hj2 m n hm hn dx dy h1 h2 h3 h4
  unfold countAlive
  rw [getNeighbors_eq]
  simp only [List.map_cons, List.map_nil, List.foldl_cons, List.foldl_nil, wrapCell]
  rw [hread (-1) (-1) (by decide) (by decide) (by decide) (by decide),
    hread (-1) 0 (by decide) (by decide) (by decide) (by decide),
    hread (-1) 1 (by decide) (by decide) (by decide) (by decide),
    hread 0 (-1) (by decide) (by decide) (by decide) (by decide),
    hread 0 1 (by decide) (by decide) (by decide) (by decide),
    hread 1 (-1) (by decide) (by decide) (by decide) (by decide),
    hread 1 0 (by decide) (by decide) (by decide) (by decide),
    hread 1 1 (by decide) (by decide) (by decide) (by decide)]
  simp only [some_bind_eq, some_map_eq, if_add_one, hit_and, Int.add_zero]
  unfold liveCnt
  simp only [Nat.zero_add]

/-- A cell outside the block never sees exactly 3 live neighbors. -/
theorem liveCnt_dead (p q : Int) (h : ¬(p = 0 ∨ p = 1) ∨ ¬(q = 0 ∨ q = 1)) :
    liveCnt p q ≠ 3 := by
  unfold liveCnt hit
  split_ifs <;> omega

/-- Every cell of the block sees exactly 3 live neighbors. -/
theorem liveCnt_alive (p q : Int) (hp : p = 0 ∨ p = 1) (hq : q = 0 ∨ q = 1) :
    liveCnt p q = 3 := by
  rcases hp with rfl | rfl <;> rcases hq with rfl | rfl <;> decide

/-- The B3/S23 rule leaves each cell of the block pattern unchanged:
`p`, `q` are the cell's distances to the block corner. -/
theorem still_life_cell (p q : Int) :
    nextCellState (decide (p = 0 ∨ p = 1) && decide (q = 0 ∨ q = 1)) (liveCnt p q) =
      (decide (p = 0 ∨ p = 1) && decide (q = 0 ∨ q = 1)) := by
  cases hA : decide (p = 0 ∨ p = 1) <;> cases hB : decide (q = 0 ∨ q = 1)
  · show (if ¬(liveCnt p q = 3) then false else true) = false
    rw [if_pos (liveCnt_dead p q (Or.inl (of_decide_eq_false hA)))]
  · show (if ¬(liveCnt p q = 3) then false else true) = false
    rw [if_pos (liveCnt_dead p q (Or.inl (of_decide_eq_false hA)))]
  · show (if ¬(liveCnt p q = 3) then false else true) = false
    rw [if_pos (liveCnt_dead p q (Or.inr (of_decide_eq_false hB)))]
  · show (if liveCnt p q < 2 ∨ liveCnt p q > 3 then false else true) = true
    rw [liveCnt_alive p q (of_decide_eq_true hA) (of_decide_eq_true hB)]
    decide

/-- The Nat-level block predicate in terms of integer distances. -/
theorem blockCell_eq_int (i j m n : Nat) :
    blockCell i j m n =
      (decide ((m : Int) - i = 0 ∨ (m : Int) - i = 1) &&
        decide ((n : Int) - j = 0 ∨ (n : Int) - j = 1)) := by
  unfold blockCell
  congr 1 <;> rw [decide_eq_decide] <;> constructor <;> intro h <;> omega

/-- Fixed-point criterion for `step` on a predicate-generated grid. -/
theorem step_fix (glob : Grid) (f : Nat → Nat → Bool)
    (hcell : ∀ m n : Nat, m < 100 → n < 100 →
      (countAlive glob ((getNeighbors ((m : Int), (n : Int))).map wrapCell)).map
        (fun alive => nextCellState (f m n) alive) = some (f m n)) :
    step glob (mkGrid f) = some (mkGrid f) := by
  unfold step mkGrid
  rw [List.range_eq_range']
  apply mapIdxOpt_fix_range
  intro m _ hm2
  apply mapIdxOpt_fix_range
  intro n _ hn2
  exact hcell m n (by omega) (by omega)

/-- Stepping the block grid (as both global and argument, as in the program)
returns it unchanged. -/
theorem step_blockGrid (i j : Nat) (hi1 : 1 ≤ i) (hi2 : i + 2 ≤ 99)
    (hj1 : 1 ≤ j) (hj2 : j + 2 ≤ 99) :
    step (blockGrid i j) (blockGrid i j) = some (blockGrid i j) := by
  have h := step_fix (blockGrid i j) (blockCell i j) ?_
  · exact h
  · intro m n hm hn
    rw [countAlive_blockGrid i j m n hi1 hi2 hj1 hj2 hm hn, some_map_eq,
      blockCell_eq_int i j m n, still_life_cell]

/-- Iterating the program loop from the block grid returns it forever. -/
theorem run_blockGrid (i j : Nat) (hi1 : 1 ≤ i) (hi2 : i + 2 ≤ 99)
    (hj1 : 1 ≤ j) (hj2 : j + 2 ≤ 99) (k : Nat) :
    run (blockGrid i j) k = some (blockGrid i j) := by
  induction k with
  | zero => rfl
  | succ k ih =>
      show (step (blockGrid i j) (blockGrid i j)).bind _ = _
      rw [step_blockGrid i j hi1 hi2 hj1 hj2, some_bind_eq]
      exact ih

/-- C7: a 100 x 100 grid whose only live cells form a 2 x 2 block away from
the edges (so that toroidal wrap does not interfere) is left element-wise
unchanged by any number of program steps: `blockGrid i j` is 100 x 100, its
cell (m, n) is alive exactly when `blockCell i j m n`, and every iteration
count returns it unchanged. -/
theorem block_still_life (i j : Nat) (hi1 : 1 ≤ i) (hi2 : i + 2 ≤ 99)
    (hj1 : 1 ≤ j) (hj2 : j + 2 ≤ 99) :
    ((blockGrid i j).length = 100 ∧ (∀ row ∈ blockGrid i j, row.length = 100) ∧
      ∀ m n : Nat, m < 100 → n < 100 →
        ((blockGrid i j)[m]?.bind fun row => row[n]?) = some (blockCell i j m n)) ∧
    (∀ k : Nat, run (blockGrid i j) k = some (blockGrid i j)) := by
  refine ⟨⟨by simp [blockGrid, mkGrid], ?_, ?_⟩, run_blockGrid i j hi1 hi2 hj1 hj2⟩
  · intro row hrow
    simp only [blockGrid, mkGrid, List.mem_map, List.mem_range] at hrow
    obtain ⟨a, _, rfl⟩ := hrow
    simp
  · intro m n hm hn
    unfold blockGrid mkGrid
    rw [List.getElem?_map, List.getElem?_range hm, some_map_eq, some_bind_eq,
      List.getElem?_map, List.getElem?_range hn, some_map_eq]

theorem block_still_life_witness :
    run (blockGrid 10 10) 5 = some (blockGrid 10 10) :=
  (block_still_life 10 10 (by decide) (by decide) (by decide) (by decide)).2 5

/-- C9: coordinate wrapping is idempotent, both for a single index through
`wrapIndex` and for a coordinate pair through `wrapCell`. -/
theorem wrap_idempotent :
    (∀ i : Int, wrapIndex (wrapIndex i) = wrapIndex i) ∧
    (∀ c : Int × Int, wrapCell (wrapCell c) = wrapCell c) := by
  have h : ∀ i : Int, wrapIndex (wrapIndex i) = wrapIndex i := by
    intro i
    rw [wrapIndex_eq_emod (wrapIndex i), wrapIndex_eq_emod i]
    omega
  exact ⟨h, fun c => by simp [wrapCell, h]⟩

end GameOfLife
